import Mathlib

/-!
Shallow embedding of the calibration and rolling-statistics core of the
scaleui dashboard (src/unnamed/part_000): the polling guard in usePolling,
the time-windowed sample buffers of BatteryPage and AdvancedCalibrationPage,
the rolling mean effect, and the calibration point list with its
least-squares fit effect.

JavaScript numbers are modelled as rationals (all inputs in the claims are
exactly representable, and every arithmetic step involved is exact);
timestamps are integers (milliseconds).  React state updates are modelled as
explicit state-passing functions: an effect that reads state S and previous
state P and stores a new value becomes a Lean function of S and P.
-/

namespace ScaleUI

/-- Number.prototype.toFixed(3), read back as a number: round to the nearest
multiple of 1/1000, ties toward the larger value (the ECMAScript rule picks
the larger candidate integer on a tie). -/
def round3 (q : ℚ) : ℚ := (⌊q * 1000 + 1 / 2⌋ : ℚ) / 1000

/-- A calibration point { raw, actual } (part_000 line 510), with both
components finite numbers. -/
structure CalPoint where
  raw : ℚ
  actual : ℚ
deriving DecidableEq

/-- calPoints.reduce((sum, p) => sum + p.raw, 0)  (part_000 line 530). -/
def sumX (pts : List CalPoint) : ℚ := pts.foldl (fun s p => s + p.raw) 0

/-- calPoints.reduce((sum, p) => sum + p.actual, 0)  (part_000 line 531). -/
def sumY (pts : List CalPoint) : ℚ := pts.foldl (fun s p => s + p.actual) 0

/-- calPoints.reduce((sum, p) => sum + p.raw * p.actual, 0)  (line 532). -/
def sumXY (pts : List CalPoint) : ℚ := pts.foldl (fun s p => s + p.raw * p.actual) 0

/-- calPoints.reduce((sum, p) => sum + p.raw * p.raw, 0)  (line 533). -/
def sumX2 (pts : List CalPoint) : ℚ := pts.foldl (fun s p => s + p.raw * p.raw) 0

/-- n * sumX2 - sumX * sumX  (part_000 line 534). -/
def denominator (pts : List CalPoint) : ℚ :=
  (pts.length : ℚ) * sumX2 pts - sumX pts * sumX pts

/-- (n * sumXY - sumX * sumY) / denominator  (part_000 line 536); only ever
used by the code under the guard denominator ≠ 0. -/
def slope (pts : List CalPoint) : ℚ :=
  ((pts.length : ℚ) * sumXY pts - sumX pts * sumY pts) / denominator pts

/-- (sumY - slope * sumX) / n  (part_000 line 537). -/
def intercept (pts : List CalPoint) : ℚ :=
  (sumY pts - slope pts * sumX pts) / (pts.length : ℚ)

/-- The fitResults record { scale, offset }; the code stores the string
"N/A" in a field when the slope is zero, modelled as none. -/
structure FitResult where
  scale : Option ℚ
  offset : Option ℚ
deriving DecidableEq

/-- The fit effect of AdvancedCalibrationPage (part_000 lines 527-547) as a
state transformer: given the current calPoints and the previous fitResults
state, produce the new fitResults state.  With fewer than 2 points the state
is set to null; with at least 2 points and nonzero denominator a new fit is
stored; with zero denominator no setter runs, so the previous state stays. -/
def fitEffect (calPoints : List CalPoint) (prev : Option FitResult) : Option FitResult :=
  if 2 ≤ calPoints.length then
    if denominator calPoints ≠ 0 then
      some
        { scale :=
            if slope calPoints ≠ 0 then some (round3 (1 / slope calPoints)) else none
          offset :=
            if slope calPoints ≠ 0 then
              some (round3 (-intercept calPoints / slope calPoints))
            else none }
    else prev
  else none

/-- Modelled from the spec: the regression input set of computeFit, namely
all points whose actual differs from the zero weight, or all points when the
zero weight is unset.  Used only to compare against the regression input the
code actually uses (which is calPoints itself). -/
def usableRegressionSet (zeroWeight : Option ℚ) (pts : List CalPoint) : List CalPoint :=
  match zeroWeight with
  | none => pts
  | some z => pts.filter (fun p => decide (p.actual ≠ z))

/-- The two point lists kept by AdvancedCalibrationPage: calPoints (fed to
the fit effect) and logPlotData (fed to the scatter plot). -/
structure CalState where
  calPoints : List CalPoint
  logPlotData : List CalPoint
deriving DecidableEq

/-- addCalPoint (part_000 lines 508-518) restricted to finite numeric
inputs: appends the point to calPoints unconditionally, and to logPlotData
only when its actual differs from the zero weight. -/
def addCalPointQ (zeroWeight r a : ℚ) (s : CalState) : CalState :=
  { calPoints := s.calPoints ++ [⟨r, a⟩]
    logPlotData :=
      if a ≠ zeroWeight then s.logPlotData ++ [⟨r, a⟩] else s.logPlotData }

/-- The value of a JavaScript number as produced by parseFloat: NaN, an
infinity, or a finite value (modelled as a rational). -/
inductive JsNum where
  | nan
  | posInf
  | negInf
  | num (q : ℚ)
deriving DecidableEq

/-- Number.isFinite for the JsNum model. -/
def JsNum.isFinite : JsNum → Bool
  | .num _ => true
  | _ => false

/-- A point as actually stored by addCalPoint, whose components may be any
parseFloat result, finite or not. -/
structure RawPoint where
  raw : JsNum
  actual : JsNum
deriving DecidableEq

/-- The calPoints update of addCalPoint (part_000 lines 508-511) on the full
input domain.  A text field value is either the empty string (modelled as
none) or a non-empty string whose parseFloat result is some JsNum.  The code
returns early when either field is the empty string, and otherwise appends
the parsed pair with no further validation. -/
def addCalPoint (pointRaw pointActual : Option JsNum) (calPoints : List RawPoint) :
    List RawPoint :=
  match pointRaw, pointActual with
  | some r, some a => calPoints ++ [⟨r, a⟩]
  | _, _ => calPoints

/-- Result type for the error-signalling operations described by the spec. -/
inductive SpecResult (α : Type) where
  | ok (val : α)
  | err (msg : String)
deriving DecidableEq

/-- Modelled from the spec: addPoint appends the point for finite inputs and
fails with InvalidInputError when raw or actual is not a finite number. -/
def addPointSpec (r a : JsNum) (pts : List RawPoint) : SpecResult (List RawPoint) :=
  if r.isFinite && a.isFinite then SpecResult.ok (pts ++ [⟨r, a⟩])
  else SpecResult.err "InvalidInputError"

/-- Helper for removeCalPoint: prev.filter((_, i) => i !== index) written as
a recursion carrying the element index i. -/
def removeCalPointAux (index : ℤ) : ℤ → List CalPoint → List CalPoint
  | _, [] => []
  | i, p :: ps =>
    if i ≠ index then p :: removeCalPointAux index (i + 1) ps
    else removeCalPointAux index (i + 1) ps

/-- removeCalPoint (part_000 lines 521-524) acting on a point list:
prev.filter((_, i) => i !== index). -/
def removeCalPoint (index : ℤ) (pts : List CalPoint) : List CalPoint :=
  removeCalPointAux index 0 pts

/-- Modelled from the spec: removePoint removes the point at the given
insertion-order position and fails with IndexOutOfRangeError when the index
is outside [0, len). -/
def removePointSpec (index : ℤ) (pts : List CalPoint) : SpecResult (List CalPoint) :=
  if 0 ≤ index ∧ index < (pts.length : ℤ) then SpecResult.ok (pts.eraseIdx index.toNat)
  else SpecResult.err "IndexOutOfRangeError"

/-- MEAN_WINDOW = 10000 ms  (part_000 line 7). -/
def MEAN_WINDOW : ℤ := 10000

/-- MAX_PLOT_DURATION = 300000 ms  (part_000 line 6). -/
def MAX_PLOT_DURATION : ℤ := 300000

/-- A buffered sample { time, value }. -/
structure Sample where
  time : ℤ
  value : ℚ
deriving DecidableEq

/-- One buffer update step (part_000 lines 491-495 for the 10 s mean buffer
and lines 169-172 for the 5 min plot buffer): append the new sample, then
keep only samples with now - time ≤ window. -/
def insertSample (window now : ℤ) (v : ℚ) (buf : List Sample) : List Sample :=
  (buf ++ [(⟨now, v⟩ : Sample)]).filter (fun pt => decide (now - pt.time ≤ window))

/-- Fold a sequence of (timestamp, value) insertions through insertSample,
starting from the initial empty buffer. -/
def runInserts (window : ℤ) (evs : List (ℤ × ℚ)) : List Sample :=
  evs.foldl (fun buf e => insertSample window e.1 e.2 buf) []

/-- rawBuffer.reduce((acc, pt) => acc + pt.value, 0)  (part_000 line 502). -/
def sumVals (buf : List Sample) : ℚ := buf.foldl (fun acc pt => acc + pt.value) 0

/-- sum / rawBuffer.length: the arithmetic mean of the buffer values. -/
def meanOf (buf : List Sample) : ℚ := sumVals buf / (buf.length : ℚ)

/-- The mean effect of AdvancedCalibrationPage (part_000 lines 499-505) as a
state transformer on the meanRaw state (initially null, modelled as none):
for a non-empty buffer it stores (sum / length).toFixed(3); for an empty
buffer it runs no setter, so the previous state stays. -/
def meanStep (buf : List Sample) (prev : Option ℚ) : Option ℚ :=
  if 0 < buf.length then some (round3 (meanOf buf)) else prev

/-- State of the usePolling hook (part_000 lines 13-38): the inProgress ref
and the number of API calls currently outstanding (a ghost counter for the
pending promises created by apiCall). -/
structure PollState where
  inProgress : Bool
  inFlight : ℕ
deriving DecidableEq

/-- Initial hook state: inProgress = false, no call outstanding. -/
def initPoll : PollState := { inProgress := false, inFlight := 0 }

/-- One timer tick (part_000 lines 19-33): if inProgress the tick does
nothing; otherwise it sets inProgress and starts one API call. -/
def tickStep (s : PollState) : PollState :=
  if s.inProgress then s else { inProgress := true, inFlight := s.inFlight + 1 }

/-- Event steps of the polling loop: a timer tick, a promise fulfilling (the
then-handler, lines 23-27, clears inProgress), or a promise rejecting (the
catch-handler, lines 28-31, also clears inProgress).  A settlement step
requires an outstanding call. -/
inductive PollStep : PollState → PollState → Prop where
  | tick (s : PollState) : PollStep s (tickStep s)
  | fulfilled (s : PollState) (h : 0 < s.inFlight) :
      PollStep s { inProgress := false, inFlight := s.inFlight - 1 }
  | rejected (s : PollState) (h : 0 < s.inFlight) :
      PollStep s { inProgress := false, inFlight := s.inFlight - 1 }

/-- The states the polling loop can reach from its initial state. -/
def PollReachable (s : PollState) : Prop :=
  Relation.ReflTransGen PollStep initPoll s

/-- The inProgress flag exactly tracks the outstanding-call count. -/
def pollInv (s : PollState) : Prop :=
  s.inFlight = if s.inProgress then 1 else 0

/-- Rounding to three decimals is the identity on values that are already
integer multiples of 1/1000. -/
theorem round3_eq_self {q : ℚ} {k : ℤ} (hk : q * 1000 = (k : ℚ)) : round3 q = q := by
  have hq : q = (k : ℚ) / 1000 := by
    rw [eq_div_iff (by norm_num : (1000 : ℚ) ≠ 0)]
    exact hk
  unfold round3
  rw [hk, add_comm, Int.floor_add_int]
  norm_num [hq]

/-- A fold of raw-component sums over a constant-raw list. -/
theorem foldl_raw_const :
    ∀ (pts : List CalPoint) (c a : ℚ), (∀ p ∈ pts, p.raw = c) →
      pts.foldl (fun s p => s + p.raw) a = a + (pts.length : ℚ) * c := by
  intro pts
  induction pts with
  | nil => intro c a _; simp
  | cons p ps ih =>
    intro c a h
    have hp : p.raw = c := h p (by simp)
    simp only [List.foldl_cons, List.length_cons]
    rw [ih c (a + p.raw) (fun q hq => h q (by simp [hq])), hp]
    push_cast
    ring

/-- A fold of squared-raw sums over a constant-raw list. -/
theorem foldl_raw_sq_const :
    ∀ (pts : List CalPoint) (c a : ℚ), (∀ p ∈ pts, p.raw = c) →
      pts.foldl (fun s p => s + p.raw * p.raw) a = a + (pts.length : ℚ) * (c * c) := by
  intro pts
  induction pts with
  | nil => intro c a _; simp
  | cons p ps ih =>
    intro c a h
    have hp : p.raw = c := h p (by simp)
    simp only [List.foldl_cons, List.length_cons]
    rw [ih c (a + p.raw * p.raw) (fun q hq => h q (by simp [hq])), hp]
    push_cast
    ring

/-- When every raw value equals the same constant the regression
denominator vanishes. -/
theorem denominator_const_raw (pts : List CalPoint) (c : ℚ)
    (h : ∀ p ∈ pts, p.raw = c) : denominator pts = 0 := by
  unfold denominator sumX sumX2
  rw [foldl_raw_const pts c 0 h, foldl_raw_sq_const pts c 0 h]
  ring

/-- Every sample surviving an insertSample pass is within the window of the
timestamp just inserted. -/
theorem insertSample_age (w now : ℤ) (v : ℚ) (buf : List Sample) :
    ∀ pt ∈ insertSample w now v buf, now - pt.time ≤ w := by
  intro pt hpt
  have h := (List.mem_filter.mp hpt).2
  exact of_decide_eq_true h

/-- Running an insertion sequence ending in (t, v) is one insertSample step
on the buffer produced by the prefix. -/
theorem runInserts_concat (w : ℤ) (evs : List (ℤ × ℚ)) (t : ℤ) (v : ℚ) :
    runInserts w (evs ++ [(t, v)]) = insertSample w t v (runInserts w evs) := by
  simp [runInserts, List.foldl_append]

/-- removeCalPointAux leaves the list unchanged when the target index lies
entirely outside the index range it will traverse. -/
theorem removeCalPointAux_skip (index : ℤ) :
    ∀ (pts : List CalPoint) (i : ℤ),
      index < i ∨ i + (pts.length : ℤ) ≤ index →
        removeCalPointAux index i pts = pts := by
  intro pts
  induction pts with
  | nil => intro i _; rfl
  | cons p ps ih =>
    intro i h
    simp only [List.length_cons] at h
    push_cast at h
    have hne : i ≠ index := by omega
    have hrec := ih (i + 1) (by omega)
    simp only [removeCalPointAux]
    rw [if_pos hne, hrec]

/-- removeCalPointAux drops exactly the element whose running index matches
the target, keeping the prefix and suffix intact. -/
theorem removeCalPointAux_hit (index : ℤ) :
    ∀ (pts : List CalPoint) (i : ℤ), i ≤ index → index < i + (pts.length : ℤ) →
      removeCalPointAux index i pts =
        pts.take (index - i).toNat ++ pts.drop ((index - i).toNat + 1) := by
  intro pts
  induction pts with
  | nil =>
    intro i h1 h2
    exfalso
    simp only [List.length_nil] at h2
    omega
  | cons p ps ih =>
    intro i h1 h2
    simp only [List.length_cons] at h2
    push_cast at h2
    by_cases hi : i = index
    · have ht : (index - i).toNat = 0 := by omega
      simp only [removeCalPointAux]
      rw [if_neg (by omega : ¬i ≠ index),
        removeCalPointAux_skip index ps (i + 1) (by omega), ht]
      simp
    · have hne : i ≠ index := hi
      obtain ⟨k, hk⟩ : ∃ k : ℕ, (index - i).toNat = k + 1 :=
        ⟨(index - (i + 1)).toNat, by omega⟩
      have hk2 : (index - (i + 1)).toNat = k := by omega
      have hrec := ih (i + 1) (by omega) (by omega)
      simp only [removeCalPointAux]
      rw [if_pos hne, hrec, hk2, hk]
      simp [List.take_succ_cons, List.drop_succ_cons]

/-- removeCalPoint with an index outside [0, len) returns the list
unchanged. -/
theorem removeCalPoint_out (index : ℤ) (pts : List CalPoint)
    (h : index < 0 ∨ (pts.length : ℤ) ≤ index) : removeCalPoint index pts = pts := by
  unfold removeCalPoint
  exact removeCalPointAux_skip index pts 0 (by omega)

/-- removeCalPoint with an index inside [0, len) keeps the prefix before the
index and the suffix after it. -/
theorem removeCalPoint_in (index : ℤ) (pts : List CalPoint)
    (h0 : 0 ≤ index) (h1 : index < (pts.length : ℤ)) :
    removeCalPoint index pts = pts.take index.toNat ++ pts.drop (index.toNat + 1) := by
  unfold removeCalPoint
  have h := removeCalPointAux_hit index pts 0 (by omega) (by omega)
  simpa using h

/-- The initial polling state satisfies the flag invariant. -/
theorem pollInv_init : pollInv initPoll := by
  simp [pollInv, initPoll]

/-- Every polling step preserves the flag invariant. -/
theorem pollInv_step {s s' : PollState} (h : pollInv s) (hs : PollStep s s') :
    pollInv s' := by
  unfold pollInv at h ⊢
  cases hs with
  | tick =>
    unfold tickStep
    cases hpv : s.inProgress with
    | true => simp only [hpv] at h ⊢; simpa [hpv] using h
    | false => simp [hpv] at h ⊢; omega
  | fulfilled hguard => cases hpv : s.inProgress <;> simp [hpv] at h ⊢ <;> omega
  | rejected hguard => cases hpv : s.inProgress <;> simp [hpv] at h ⊢ <;> omega

/-- Every reachable polling state satisfies the flag invariant. -/
theorem pollInv_reachable {s : PollState} (h : PollReachable s) : pollInv s := by
  unfold PollReachable at h
  induction h with
  | refl => exact pollInv_init
  | tail hab hbc ih => exact pollInv_step ih hbc

/-- Claim C1 is false of the code: the fit effect reads calPoints directly,
so its regression input is not the zero-weight-filtered set.  On the points
(0,0), (10,100), (20,150) with zero weight 0, the fit the code computes
differs from the fit over the filtered set. -/
theorem C1_fit_ignores_zero_weight_cex :
    fitEffect [⟨0, 0⟩, ⟨10, 100⟩, ⟨20, 150⟩] none ≠
      fitEffect (usableRegressionSet (some 0) [⟨0, 0⟩, ⟨10, 100⟩, ⟨20, 150⟩]) none := by
  norm_num [fitEffect, denominator, slope, intercept, sumX, sumY, sumXY, sumX2, round3, usableRegressionSet, List.filter]

/-- Claim C1 amended: computeFit builds its regression input set as all
points of the list, regardless of the zero weight; the zero-weight exclusion
applies only to the log-plot data set.  Every added point enters calPoints,
and in the example run (0,0), (5,50), (10,100) with zero weight 0 the plot
set is the two nonzero points while the fit is computed from all three,
which for this collinear data still gives scale 0.1 and offset 0. -/
theorem C1_fit_uses_all_points :
    (∀ (zw r a : ℚ) (s : CalState),
        (addCalPointQ zw r a s).calPoints = s.calPoints ++ [⟨r, a⟩]) ∧
      ((addCalPointQ 0 10 100 (addCalPointQ 0 5 50 (addCalPointQ 0 0 0 ⟨[], []⟩))).calPoints =
          [⟨0, 0⟩, ⟨5, 50⟩, ⟨10, 100⟩] ∧
        (addCalPointQ 0 10 100 (addCalPointQ 0 5 50 (addCalPointQ 0 0 0 ⟨[], []⟩))).logPlotData =
          [⟨5, 50⟩, ⟨10, 100⟩] ∧
        fitEffect [⟨0, 0⟩, ⟨5, 50⟩, ⟨10, 100⟩] none =
          some ⟨some (1 / 10), some 0⟩) := by
  refine ⟨fun zw r a s => rfl, by decide, by decide, ?_⟩
  norm_num [fitEffect, denominator, slope, intercept, sumX, sumY, sumXY, sumX2, round3]

/-- Claim C2 is false of the code: with at least two points and a zero
denominator (all raw values identical) the fit effect leaves the previous
fit state in place instead of signalling insufficient data.  Starting from
the fit of (0,0), (10,100) and moving to the degenerate list (0,0), (0,5),
the stale fit remains. -/
theorem C2_degenerate_keeps_stale_fit_cex :
    fitEffect [⟨0, 0⟩, ⟨0, 5⟩] (fitEffect [⟨0, 0⟩, ⟨10, 100⟩] none) ≠ none := by
  norm_num [fitEffect, denominator, slope, intercept, sumX, sumY, sumXY, sumX2, round3]
  exact Option.some_ne_none _

/-- Claim C2 amended: with fewer than two points the fit state is cleared
(no FitResult); with at least two points and zero denominator (in
particular, all raw values identical) the code performs no division and
leaves the fit state unchanged, so a previously computed fit stays in
place. -/
theorem C2_insufficient_data (pts : List CalPoint) (prev : Option FitResult) (c : ℚ) :
    ((∀ p ∈ pts, p.raw = c) → denominator pts = 0) ∧
      (pts.length < 2 → fitEffect pts prev = none) ∧
      (2 ≤ pts.length → denominator pts = 0 → fitEffect pts prev = prev) := by
  refine ⟨denominator_const_raw pts c, fun hlt => ?_, fun hge hden => ?_⟩
  · unfold fitEffect
    rw [if_neg (by omega)]
  · unfold fitEffect
    rw [if_pos hge, if_neg (by simpa using hden)]

/-- Witness for claim C2 amended: on the list (0,0), (0,5), whose raw values
are all 0, the denominator vanishes and the fit effect keeps the previous
fit state. -/
theorem C2_insufficient_data_witness :
    denominator [⟨0, 0⟩, ⟨0, 5⟩] = 0 ∧
      fitEffect [⟨0, 0⟩, ⟨0, 5⟩] (some ⟨some 1, some 0⟩) = some ⟨some 1, some 0⟩ := by
  have h := C2_insufficient_data [⟨0, 0⟩, ⟨0, 5⟩] (some ⟨some 1, some 0⟩) 0
  have hd : denominator [⟨0, 0⟩, ⟨0, 5⟩] = 0 := h.1 (by decide)
  exact ⟨hd, h.2.2 (by decide) hd⟩

/-- Claim C3: on the points (0,0), (10,100) the least-squares fit has slope
10 and intercept 0, and the fit effect stores scale 1/10 and offset 0 after
the model inversion and three-decimal rounding. -/
theorem C3_perfect_line_fit :
    slope [⟨0, 0⟩, ⟨10, 100⟩] = 10 ∧ intercept [⟨0, 0⟩, ⟨10, 100⟩] = 0 ∧
      fitEffect [⟨0, 0⟩, ⟨10, 100⟩] none = some ⟨some (1 / 10), some 0⟩ := by
  norm_num [fitEffect, denominator, slope, intercept, sumX, sumY, sumXY, sumX2, round3]

/-- Claim C4: for every insertion sequence with non-decreasing timestamps,
after each insert (each prefix of the sequence ending in an insert at time
t) the buffer contains no sample older than the retention window relative
to t, for both the 10 s mean buffer and the 5 min plot buffer; eviction
happens in the insert step itself. -/
theorem C4_no_stale_samples (evs : List (ℤ × ℚ)) (t : ℤ) (v : ℚ)
    (_hmono : List.Chain' (· ≤ ·) ((evs ++ [(t, v)]).map Prod.fst)) :
    (∀ pt ∈ runInserts MEAN_WINDOW (evs ++ [(t, v)]), t - pt.time ≤ MEAN_WINDOW) ∧
      (∀ pt ∈ runInserts MAX_PLOT_DURATION (evs ++ [(t, v)]),
        t - pt.time ≤ MAX_PLOT_DURATION) := by
  constructor
  · rw [runInserts_concat]
    exact insertSample_age MEAN_WINDOW t v (runInserts MEAN_WINDOW evs)
  · rw [runInserts_concat]
    exact insertSample_age MAX_PLOT_DURATION t v (runInserts MAX_PLOT_DURATION evs)

/-- Witness for claim C4 at the concrete run (0, 5), (1, 6). -/
theorem C4_no_stale_samples_witness :
    List.Chain' (· ≤ ·) (([((0 : ℤ), (5 : ℚ))] ++ [((1 : ℤ), (6 : ℚ))]).map Prod.fst) ∧
      ∀ pt ∈ runInserts MEAN_WINDOW ([((0 : ℤ), (5 : ℚ))] ++ [((1 : ℤ), (6 : ℚ))]),
        (1 : ℤ) - pt.time ≤ MEAN_WINDOW := by
  refine ⟨by simp [List.chain'_cons], ?_⟩
  exact (C4_no_stale_samples [((0 : ℤ), (5 : ℚ))] 1 6 (by simp [List.chain'_cons])).1

/-- Claim C5 is false of the code: the mean effect stores the arithmetic
mean rounded by toFixed(3), which differs from the exact arithmetic mean on
the buffer with values 1, 1, 2 (stored 1333/1000, exact 4/3). -/
theorem C5_mean_is_rounded_cex :
    meanStep [⟨0, 1⟩, ⟨1, 1⟩, ⟨2, 2⟩] none ≠
      some (meanOf [⟨0, 1⟩, ⟨1, 1⟩, ⟨2, 2⟩]) := by
  norm_num [meanStep, meanOf, sumVals, round3]

/-- Claim C5 amended: for every non-empty buffer the mean effect stores the
arithmetic mean rounded to three decimals; whenever the exact mean is an
integer multiple of 1/1000 — in particular over the values 10, 20, 30,
whose mean is 20 — the stored value equals the exact arithmetic mean. -/
theorem C5_mean_of_buffer (buf : List Sample) (prev : Option ℚ) (k : ℤ)
    (hne : buf ≠ []) (hk : meanOf buf * 1000 = (k : ℚ)) :
    meanStep buf prev = some (meanOf buf) := by
  unfold meanStep
  rw [if_pos (List.length_pos.mpr hne), round3_eq_self hk]

/-- Witness for claim C5 amended: over the values 10, 20, 30 the stored mean
is exactly 20. -/
theorem C5_mean_of_buffer_witness :
    ([⟨0, 10⟩, ⟨1, 20⟩, ⟨2, 30⟩] : List Sample) ≠ [] ∧
      meanOf [⟨0, 10⟩, ⟨1, 20⟩, ⟨2, 30⟩] * 1000 = ((20000 : ℤ) : ℚ) ∧
      meanStep [⟨0, 10⟩, ⟨1, 20⟩, ⟨2, 30⟩] none = some 20 := by
  refine ⟨by decide, by norm_num [meanOf, sumVals], ?_⟩
  have h := C5_mean_of_buffer [⟨0, 10⟩, ⟨1, 20⟩, ⟨2, 30⟩] none 20000 (by decide)
    (by norm_num [meanOf, sumVals])
  exact h.trans (by norm_num [meanOf, sumVals])

/-- Claim C6 is false of the code: addCalPoint performs no finiteness check,
so a non-finite parsed input such as NaN is appended to the point list,
while the spec-modelled addPoint rejects it with InvalidInputError. -/
theorem C6_add_point_cex :
    addCalPoint (some JsNum.nan) (some (JsNum.num 3)) [] =
        [⟨JsNum.nan, JsNum.num 3⟩] ∧
      addPointSpec JsNum.nan (JsNum.num 3) [] = SpecResult.err "InvalidInputError" := by
  exact ⟨rfl, rfl⟩

/-- Claim C6 amended: addCalPoint appends the parsed pair whenever both
input fields are non-empty, with no finiteness validation and no
InvalidInputError; when either field is the empty string it is a silent
no-op. -/
theorem C6_add_point_no_validation :
    (∀ (r a : JsNum) (pts : List RawPoint),
        addCalPoint (some r) (some a) pts = pts ++ [⟨r, a⟩]) ∧
      (∀ (x : Option JsNum) (pts : List RawPoint),
        addCalPoint none x pts = pts ∧ addCalPoint x none pts = pts) := by
  refine ⟨fun r a pts => rfl, fun x pts => ?_⟩
  cases x <;> exact ⟨rfl, rfl⟩

/-- Claim C7 is false of the code: removeCalPoint with an out-of-range index
silently returns the unchanged list (there is no IndexOutOfRangeError
anywhere), while the spec-modelled removePoint fails. -/
theorem C7_remove_point_cex :
    removeCalPoint 1 [⟨1, 2⟩] = [⟨1, 2⟩] ∧
      removePointSpec 1 [⟨1, 2⟩] = SpecResult.err "IndexOutOfRangeError" := by
  exact ⟨removeCalPoint_out 1 [⟨1, 2⟩] (by norm_num), by decide⟩

/-- Claim C7 amended: removeCalPoint with an index outside [0, len) is a
silent no-op — the list is unchanged and no error is signalled — and with an
index inside [0, len) it removes exactly the point at that insertion-order
position. -/
theorem C7_remove_point_silent_out_of_range (index : ℤ) (pts : List CalPoint) :
    (index < 0 ∨ (pts.length : ℤ) ≤ index → removeCalPoint index pts = pts) ∧
      (0 ≤ index → index < (pts.length : ℤ) →
        removeCalPoint index pts = pts.eraseIdx index.toNat) := by
  refine ⟨removeCalPoint_out index pts, fun h0 h1 => ?_⟩
  rw [removeCalPoint_in index pts h0 h1, List.eraseIdx_eq_take_drop_succ]

/-- Witness for claim C7 amended: index 5 on a one-point list is a no-op,
and index 0 on a two-point list removes the first point. -/
theorem C7_remove_point_silent_out_of_range_witness :
    removeCalPoint 5 [⟨1, 2⟩] = [⟨1, 2⟩] ∧
      removeCalPoint 0 [⟨1, 2⟩, ⟨3, 4⟩] = [⟨3, 4⟩] := by
  constructor
  · exact (C7_remove_point_silent_out_of_range 5 [⟨1, 2⟩]).1 (by norm_num)
  · have h := (C7_remove_point_silent_out_of_range 0 [⟨1, 2⟩, ⟨3, 4⟩]).2
      (by norm_num) (by norm_num)
    simpa using h

/-- Claim C8: on a freshly constructed, never-inserted buffer the mean state
stays at the distinguished no-data sentinel (null, modelled as none) and is
never silently 0. -/
theorem C8_empty_mean_sentinel :
    meanStep [] none = none ∧ meanStep [] none ≠ some 0 := by
  decide

/-- Claim C9: removing a point at a valid index keeps every surviving point
identical and in its original relative order — the result is exactly the
prefix before the index followed by the suffix after it. -/
theorem C9_remove_preserves_survivors (index : ℤ) (pts : List CalPoint)
    (h0 : 0 ≤ index) (h1 : index < (pts.length : ℤ)) :
    removeCalPoint index pts = pts.take index.toNat ++ pts.drop (index.toNat + 1) :=
  removeCalPoint_in index pts h0 h1

/-- Witness for claim C9 at index 1 of a three-point list. -/
theorem C9_remove_preserves_survivors_witness :
    removeCalPoint 1 [⟨1, 2⟩, ⟨3, 4⟩, ⟨5, 6⟩] = [⟨1, 2⟩, ⟨5, 6⟩] := by
  have h := C9_remove_preserves_survivors 1 [⟨1, 2⟩, ⟨3, 4⟩, ⟨5, 6⟩]
    (by norm_num) (by norm_num)
  simpa using h

/-- Claim C10: in every reachable state of the polling loop at most one call
is in flight; when the inProgress flag is clear no call is outstanding (the
flag is released exactly when a call settles, on fulfilment and on
rejection alike); and a tick that finds the flag set leaves the state
unchanged — it starts no new call and queues nothing. -/
theorem C10_single_poll_in_flight (s : PollState) (h : PollReachable s) :
    s.inFlight ≤ 1 ∧ (s.inProgress = false → s.inFlight = 0) ∧
      (s.inProgress = true → tickStep s = s) := by
  have hinv := pollInv_reachable h
  unfold pollInv at hinv
  refine ⟨?_, fun hp => ?_, fun hp => ?_⟩
  · cases hpv : s.inProgress <;> simp [hpv] at hinv <;> omega
  · simp [hp] at hinv
    exact hinv
  · simp [tickStep, hp]

/-- Witness for claim C10 at the reachable state reached by one tick from
the initial state. -/
theorem C10_single_poll_in_flight_witness :
    PollReachable { inProgress := true, inFlight := 1 } ∧
      ({ inProgress := true, inFlight := 1 } : PollState).inFlight ≤ 1 ∧
      tickStep { inProgress := true, inFlight := 1 } =
        { inProgress := true, inFlight := 1 } := by
  have hr : PollReachable { inProgress := true, inFlight := 1 } := by
    have h1 : PollStep initPoll (tickStep initPoll) := PollStep.tick initPoll
    have h2 : tickStep initPoll = { inProgress := true, inFlight := 1 } := rfl
    exact Relation.ReflTransGen.single (h2 ▸ h1)
  have h := C10_single_poll_in_flight _ hr
  exact ⟨hr, h.1, h.2.2 rfl⟩

end ScaleUI
